import Mathlib

/-!
Shallow embedding of `svutRun.py` (SVUT test-orchestration front end).

The script builds simulator command pipelines (Icarus Verilog or Verilator)
for a set of testbench files, runs them sequentially and accumulates a
failure count.  We embed:

* the argument record (`Args`), with the filesystem abstracted as a
  predicate `fs : String → Bool` standing for `os.path.isfile`;
* `check_arguments` as a function into `Except ConfigError Unit`
  (the script prints and calls `sys.exit(1)`);
* `get_defines`, `create_iverilog`, `create_verilator` — the two backend
  strategies.  Since `create_*` assign to `args.run_only`, they return
  the updated argument record alongside the command list;
* the `__main__` batch loop (`run_main`) with an abstract clock: each
  command `c` takes `dur c` time units and exits with status `exec c`.
-/

namespace Svut

/-- The `-test` argument: under `argparse` with a string default it is
either the plain string `"all"`/`""` or a list of file paths. -/
inductive TestSel where
  | str (s : String)
  | list (l : List String)
deriving DecidableEq, Repr

/-- Embedding of the parsed argument namespace of `svutRun.py`. -/
structure Args where
  simulator : String
  test : TestSel
  dotfile : List String
  include_dirs : List String
  main : String
  define : String
  vpi : String
  run_only : Bool
  compile_only : Bool
  dry : Bool
deriving DecidableEq, Repr

/-- Python's `needle in hay` substring test on strings. -/
def pyIn (needle hay : String) : Bool :=
  decide (needle.toList <:+: hay.toList)

/-- Split a character list at every occurrence of `sep`; the pieces
include the empty ones, as in Python's `str.split(sep)`. -/
def splitChars (sep : Char) : List Char → List (List Char)
  | [] => [[]]
  | c :: cs =>
    let r := splitChars sep cs
    if c = sep then [] :: r
    else (c :: r.headD []) :: r.tail

/-- Python's `s.split(sep)` for a one-character separator: every
occurrence of `sep` starts a new piece, empty pieces are kept, and the
empty string splits to `[""]`. -/
def pySplit (s : String) (sep : Char) : List String :=
  (splitChars sep s.toList).map List.asString

/-- Configuration errors: in the script each is a printed message followed
by `sys.exit(1)`; we distinguish them by the site that raises them. -/
inductive ConfigError where
  | UnsupportedSimulator
  | MissingTestcase
  | ConflictingModes
  | ModeRequiresSingleTarget
deriving DecidableEq, Repr

/-- `check_arguments` (svutRun.py lines 40–65): validates the simulator
name, the testcase selector and the mode flags, in that order. -/
def check_arguments (args : Args) : Except ConfigError Unit :=
  if pyIn "iverilog" args.simulator || pyIn "icarus" args.simulator then
    checkRest args
  else if pyIn "verilator" args.simulator then
    checkRest args
  else
    .error .UnsupportedSimulator
where
  checkRest (args : Args) : Except ConfigError Unit :=
    if args.test = .str "" then
      .error .MissingTestcase
    else if args.compile_only && args.run_only then
      .error .ConflictingModes
    else if (args.compile_only || args.run_only) && args.test = .str "all" then
      .error .ModeRequiresSingleTarget
    else
      .ok ()

/-- The two recognized simulator backends. -/
inductive Backend where
  | icarus
  | verilator
deriving DecidableEq, Repr

/-- Backend dispatch as performed in the `__main__` loop
(svutRun.py lines 380–384): `iverilog`/`icarus` substring first,
then `verilator`. -/
def dispatch_backend (sim : String) : Option Backend :=
  if pyIn "iverilog" sim || pyIn "icarus" sim then
    some .icarus
  else if pyIn "verilator" sim then
    some .verilator
  else
    none

/-- Backend recognition in `check_arguments` (svutRun.py lines 45–51):
same chain of substring tests as the dispatch in `__main__`. -/
def check_arguments_backend (sim : String) : Option Backend :=
  if pyIn "iverilog" sim || pyIn "icarus" sim then
    some .icarus
  else if pyIn "verilator" sim then
    some .verilator
  else
    none

/-- `get_defines` (svutRun.py lines 149–164): split the define string on
`;` and append `-D<token> ` for each nonempty token. -/
def get_defines (defines : String) : String :=
  if defines = "" then ""
  else
    (pySplit defines ';').foldl
      (fun simdefs d => if d ≠ "" then simdefs ++ "-D" ++ d ++ " " else simdefs) ""

/-- Space-terminated concatenation: each list entry followed by one
space.  This is the shape in which both `get_defines` and the manifest
accumulation of the backends join their pieces. -/
def joined_sp : List String → String
  | [] => ""
  | f :: r => f ++ " " ++ joined_sp r

/-- The spec's rendering rule for defines, stated as a flag list (split
on `;`, drop empty tokens, one `-D<token>` flag per nonempty token, in
order) — kept separate from `get_defines` so the two can be compared. -/
def spec_define_flags (defines : String) : List String :=
  ((pySplit defines ';').filter (· ≠ "")).map (fun t => "-D" ++ t)

/-- The `dotfiles` accumulation shared by both backends
(svutRun.py lines 188–192 and 243–247): keep, in order, each manifest
path that exists on disk, each followed by a space. -/
def render_dotfiles (fs : String → Bool) (dotfile : List String) : String :=
  dotfile.foldl (fun dotfiles dot => if fs dot then dotfiles ++ dot ++ " " else dotfiles) ""

/-- The `-f` fragment of a compile command (svutRun.py lines 186–195 and
241–250): emitted only when the dotfile list is nonempty (Python
truthiness) and at least one listed file exists. -/
def dotfile_part (fs : String → Bool) (dotfile : List String) : String :=
  if dotfile ≠ [] then
    let dotfiles := render_dotfiles fs dotfile
    if dotfiles ≠ "" then "-f " ++ dotfiles ++ " " else ""
  else ""

/-- `os.path.basename`: the segment after the last `/`. -/
def basename (p : String) : String :=
  ((pySplit p '/').getLast?).getD p

/-- `os.path.basename(test).split(".")[0]` (svutRun.py line 222). -/
def testnameOf (test : String) : String :=
  (pySplit (basename test) '.').headD ""

/-- The compile command built by `create_iverilog`
(svutRun.py lines 181–201), as the successive `cmd +=` chain. -/
def iverilog_compile_cmd (fs : String → Bool) (args : Args) (test : String) : String :=
  let cmd := "iverilog -g2012 -Wall -o svut.out "
  let cmd := if args.define ≠ "" then cmd ++ get_defines args.define else cmd
  let cmd := cmd ++ dotfile_part fs args.dotfile
  let cmd :=
    if args.include_dirs ≠ [] then
      cmd ++ "-I " ++ String.intercalate " " args.include_dirs ++ " "
    else cmd
  cmd ++ test ++ " "

/-- The execute command built by `create_iverilog`
(svutRun.py lines 205–212). -/
def iverilog_exec_cmd (args : Args) : String :=
  let cmd := "vvp "
  let cmd := if args.vpi ≠ "" then cmd ++ args.vpi ++ " " else cmd
  cmd ++ "svut.out "

/-- `create_iverilog` (svutRun.py lines 167–214).  Mutates
`args.run_only` when `svut.out` is absent, so returns the updated
`Args` next to the command list. -/
def create_iverilog (fs : String → Bool) (args : Args) (test : String) :
    List String × Args :=
  let args := if !fs "svut.out" then { args with run_only := false } else args
  let cmds : List String := []
  let cmds := if !args.run_only then cmds ++ [iverilog_compile_cmd fs args test] else cmds
  let cmds := if !args.compile_only then cmds ++ [iverilog_exec_cmd args] else cmds
  (cmds, args)

/-- The compile command built by `create_verilator`
(svutRun.py lines 234–258), as the successive `cmd +=` chain. -/
def verilator_compile_cmd (fs : String → Bool) (args : Args) (test : String) : String :=
  let testname := testnameOf test
  let cmd := "verilator -Wall --trace --Mdir build +1800-2012ext+sv "
  let cmd := cmd ++ "+1800-2005ext+v -Wno-STMTDLY -Wno-UNUSED -Wno-UNDRIVEN -Wno-PINCONNECTEMPTY "
  let cmd := cmd ++ "-Wpedantic -Wno-VARHIDDEN -Wno-lint "
  let cmd := if args.define ≠ "" then cmd ++ get_defines args.define else cmd
  let cmd := cmd ++ dotfile_part fs args.dotfile
  let cmd :=
    if args.include_dirs ≠ [] then
      args.include_dirs.foldl (fun c inc => c ++ "+incdir+" ++ inc ++ " ") cmd
    else cmd
  let cmd := cmd ++ "-cc --exe --build -j --top-module " ++ testname ++ " "
  cmd ++ test ++ " " ++ args.main

/-- The execute command built by `create_verilator`
(svutRun.py lines 261–263). -/
def verilator_exec_cmd (test : String) : String :=
  "build/V" ++ testnameOf test

/-- `create_verilator` (svutRun.py lines 217–265).  Artifact marker is
`build/V<testname>.mk`; mutates `args.run_only` when it is absent. -/
def create_verilator (fs : String → Bool) (args : Args) (test : String) :
    List String × Args :=
  let testname := testnameOf test
  let args :=
    if !fs ("build/V" ++ testname ++ ".mk") then { args with run_only := false } else args
  let cmds : List String := []
  let cmds := if !args.run_only then cmds ++ [verilator_compile_cmd fs args test] else cmds
  let cmds := if !args.compile_only then cmds ++ [verilator_exec_cmd test] else cmds
  (cmds, args)

/-- Backend selection inside the batch loop of `__main__`
(svutRun.py lines 380–384).  After `check_arguments` the simulator is
always recognized; the `none` branch (unreachable there) yields no
commands. -/
def build_cmds (fs : String → Bool) (args : Args) (test : String) :
    List String × Args :=
  match dispatch_backend args.simulator with
  | some .icarus => create_iverilog fs args test
  | some .verilator => create_verilator fs args test
  | none => ([], args)

/-- The inner command loop of `__main__` (svutRun.py lines 390–398),
threading `(cmdret, clock)`: unless `dry`, run each command in order —
`exec c` is its exit status, `dur c` the time it takes — and on the
first nonzero status increment `cmdret` by one and `break`. -/
def run_test_cmds (exec dur : String → Nat) (dry : Bool) :
    List String → Nat × Nat → Nat × Nat
  | [], s => s
  | c :: rest, (cmdret, clock) =>
    if dry then run_test_cmds exec dur dry rest (cmdret, clock)
    else
      let clock := clock + dur c
      if exec c ≠ 0 then (cmdret + 1, clock)
      else run_test_cmds exec dur dry rest (cmdret, clock)

/-- State of the `__main__` batch loop: the accumulated `cmdret`, the
threaded (possibly mutated) argument record, the last value assigned to
`start` (none while unassigned — `start` is set inside the loop), and
the current clock. -/
structure BatchState where
  cmdret : Nat
  args : Args
  start : Option Nat
  clock : Nat
deriving Repr

/-- One-testbench-at-a-time unfolding of the batch loop of `__main__`
(svutRun.py lines 376–400): build the pipeline (threading the argument
record), set `start` to the current time, run the commands. -/
def run_main_go (fs : String → Bool) (exec dur : String → Nat) :
    BatchState → List String → BatchState
  | st, [] => st
  | st, test :: rest =>
    let (cmds, args) := build_cmds fs st.args test
    let (cmdret, clock) := run_test_cmds exec dur args.dry cmds (st.cmdret, st.clock)
    run_main_go fs exec dur
      { cmdret := cmdret, args := args, start := some st.clock, clock := clock } rest

/-- The batch loop of `__main__` (svutRun.py lines 374–400), started
from `cmdret = 0` with `start` unassigned and the clock at 0. -/
def run_main (fs : String → Bool) (exec dur : String → Nat) (args : Args)
    (tests : List String) : BatchState :=
  run_main_go fs exec dur { cmdret := 0, args := args, start := none, clock := 0 } tests

/-- `str(timedelta(seconds=end-start))` at svutRun.py lines 402–403:
the elapsed time reported once after the loop, `end − start` with
`start` the value set by the *last* loop iteration (undefined — a
`NameError` — when the test list was empty). -/
def reported_elapsed (st : BatchState) : Option Nat :=
  st.start.map (fun s => st.clock - s)

/-- Per-testbench failure counts of a batch, with the (mutable)
argument record threaded between testbenches; the script's `cmdret` is
the running sum of these. -/
def batch_failures (fs : String → Bool) (exec dur : String → Nat) (args : Args) :
    List String → List Nat
  | [] => []
  | test :: rest =>
    let (cmds, args) := build_cmds fs args test
    (run_test_cmds exec dur args.dry cmds (0, 0)).1 ::
      batch_failures fs exec dur args rest

/-- Baseline argument record: the `argparse` defaults of `svutRun.py`
(icarus, `-test all`, `files.f` manifest, no defines/includes/vpi, all
flags off). -/
def args0 : Args :=
  { simulator := "icarus", test := .str "all", dotfile := ["files.f"],
    include_dirs := [], main := "sim_main.cpp", define := "", vpi := "",
    run_only := false, compile_only := false, dry := false }

/-! ## Helper lemmas -/

theorem joined_sp_ne_empty (f : String) (r : List String) : joined_sp (f :: r) ≠ "" := by
  intro h
  have hd := congrArg String.data h
  rw [joined_sp, String.data_append, String.data_append] at hd
  simp at hd

theorem get_defines_foldl (l : List String) (a : String) :
    l.foldl (fun simdefs d => if d ≠ "" then simdefs ++ "-D" ++ d ++ " " else simdefs) a
      = a ++ joined_sp ((l.filter (· ≠ "")).map (fun t => "-D" ++ t)) := by
  induction l generalizing a with
  | nil => simp [joined_sp]
  | cons h t ih =>
    by_cases hh : h = ""
    · subst hh
      simpa using ih a
    · simp only [List.foldl_cons, List.filter_cons, hh, ne_eq, not_false_eq_true,
        decide_True, if_true, List.map_cons, joined_sp, ih]
      simp [String.append_assoc]

theorem get_defines_eq (defines : String) :
    get_defines defines = joined_sp (spec_define_flags defines) := by
  unfold get_defines spec_define_flags
  by_cases h : defines = ""
  · subst h
    simp [pySplit, splitChars, joined_sp, List.asString]
  · simp only [h, if_false, get_defines_foldl, String.empty_append]

theorem render_dotfiles_eq (fs : String → Bool) (l : List String) :
    render_dotfiles fs l = joined_sp (l.filter fs) := by
  suffices hgen : ∀ a, l.foldl (fun dotfiles dot => if fs dot then dotfiles ++ dot ++ " " else dotfiles) a
      = a ++ joined_sp (l.filter fs) by
    simpa [render_dotfiles] using hgen ""
  induction l with
  | nil => simp [joined_sp]
  | cons h t ih =>
    intro a
    by_cases hh : fs h
    · simp only [List.foldl_cons, List.filter_cons, hh, if_true, joined_sp, ih]
      simp [String.append_assoc]
    · simp [List.foldl_cons, List.filter_cons, hh, ih]

theorem dotfile_part_eq (fs : String → Bool) (l : List String) :
    dotfile_part fs l =
      if l.filter fs = [] then "" else "-f " ++ joined_sp (l.filter fs) ++ " " := by
  unfold dotfile_part
  by_cases hl : l = []
  · subst hl; simp
  · simp only [hl, ne_eq, not_false_eq_true, if_true, render_dotfiles_eq]
    by_cases hf : l.filter fs = []
    · simp [hf, joined_sp]
    · obtain ⟨f, r, hfr⟩ : ∃ f r, l.filter fs = f :: r := by
        cases hcase : l.filter fs with
        | nil => exact absurd hcase hf
        | cons f r => exact ⟨f, r, rfl⟩
      simp [hfr, joined_sp_ne_empty]

theorem create_iverilog_fst (fs : String → Bool) (args : Args) (test : String) :
    (create_iverilog fs args test).1 =
      (if args.run_only && fs "svut.out" then [] else [iverilog_compile_cmd fs args test])
        ++ (if args.compile_only then [] else [iverilog_exec_cmd args]) := by
  unfold create_iverilog
  cases hfs : fs "svut.out" <;> cases hro : args.run_only <;>
    cases hco : args.compile_only <;>
      simp [hfs, hro, hco, iverilog_compile_cmd, iverilog_exec_cmd]

theorem create_iverilog_snd (fs : String → Bool) (args : Args) (test : String) :
    (create_iverilog fs args test).2 =
      { args with run_only := args.run_only && fs "svut.out" } := by
  unfold create_iverilog
  cases hfs : fs "svut.out" <;> simp [hfs]

theorem create_verilator_fst (fs : String → Bool) (args : Args) (test : String) :
    (create_verilator fs args test).1 =
      (if args.run_only && fs ("build/V" ++ testnameOf test ++ ".mk") then []
        else [verilator_compile_cmd fs args test])
        ++ (if args.compile_only then [] else [verilator_exec_cmd test]) := by
  unfold create_verilator
  cases hfs : fs ("build/V" ++ testnameOf test ++ ".mk") <;> cases hro : args.run_only <;>
    cases hco : args.compile_only <;>
      simp [hfs, hro, hco, verilator_compile_cmd, verilator_exec_cmd]

theorem create_verilator_snd (fs : String → Bool) (args : Args) (test : String) :
    (create_verilator fs args test).2 =
      { args with run_only := args.run_only && fs ("build/V" ++ testnameOf test ++ ".mk") } := by
  unfold create_verilator
  cases hfs : fs ("build/V" ++ testnameOf test ++ ".mk") <;> simp [hfs]

theorem run_test_cmds_fst (exec dur : String → Nat) (dry : Bool) (cmds : List String) :
    ∀ r t, (run_test_cmds exec dur dry cmds (r, t)).1
      = r + (run_test_cmds exec dur dry cmds (0, 0)).1 := by
  induction cmds with
  | nil => intro r t; simp [run_test_cmds]
  | cons c rest ih =>
    intro r t
    cases dry with
    | true => simpa [run_test_cmds] using ih r t
    | false =>
      by_cases hc : exec c = 0
      · have h1 := ih r (t + dur c)
        have h2 := ih 0 (0 + dur c)
        simp only [run_test_cmds, Bool.false_eq_true, if_false, hc, ne_eq,
          not_true_eq_false, ite_false]
        rw [h1, h2]
        omega
      · simp [run_test_cmds, hc]

theorem run_main_go_cmdret (fs : String → Bool) (exec dur : String → Nat) :
    ∀ (tests : List String) (st : BatchState),
      (run_main_go fs exec dur st tests).cmdret
        = st.cmdret + (batch_failures fs exec dur st.args tests).sum := by
  intro tests
  induction tests with
  | nil => intro st; simp [run_main_go, batch_failures]
  | cons test rest ih =>
    intro st
    simp only [run_main_go, batch_failures, ih, List.sum_cons]
    rw [run_test_cmds_fst]
    omega

theorem run_main_go_append (fs : String → Bool) (exec dur : String → Nat)
    (l₁ l₂ : List String) : ∀ st : BatchState,
    run_main_go fs exec dur st (l₁ ++ l₂)
      = run_main_go fs exec dur (run_main_go fs exec dur st l₁) l₂ := by
  induction l₁ with
  | nil => intro st; rfl
  | cons test rest ih =>
    intro st
    simp only [List.cons_append, run_main_go]
    exact ih _

theorem check_arguments_of_recognized (args : Args)
    (h : check_arguments_backend args.simulator ≠ none) :
    check_arguments args = check_arguments.checkRest args := by
  unfold check_arguments
  unfold check_arguments_backend at h
  by_cases h1 : (pyIn "iverilog" args.simulator || pyIn "icarus" args.simulator) = true
  · simp [h1]
  · by_cases h2 : pyIn "verilator" args.simulator = true
    · simp [h1, h2]
    · simp [h1, h2] at h

theorem incdir_foldl (l : List String) (a : String) :
    l.foldl (fun c inc => c ++ "+incdir+" ++ inc ++ " ") a
      = a ++ joined_sp (l.map (fun inc => "+incdir+" ++ inc)) := by
  induction l generalizing a with
  | nil => simp [joined_sp]
  | cons h t ih =>
    simp only [List.foldl_cons, List.map_cons, joined_sp, ih]
    simp [String.append_assoc]

theorem run_test_cmds_fail (exec dur : String → Nat) (pre : List String)
    (h1 : ∀ x ∈ pre, exec x = 0) (c : String) (h2 : exec c ≠ 0) (post : List String) :
    ∀ cmdret clock, run_test_cmds exec dur false (pre ++ c :: post) (cmdret, clock)
      = (cmdret + 1, clock + (pre.map dur).sum + dur c) := by
  induction pre with
  | nil =>
    intro cmdret clock
    simp [run_test_cmds, h2]
  | cons x rest ih =>
    intro cmdret clock
    have hx : exec x = 0 := h1 x (by simp)
    have ih' := ih (fun y hy => h1 y (by simp [hy])) cmdret (clock + dur x)
    rw [List.cons_append]
    rw [show run_test_cmds exec dur false (x :: (rest ++ c :: post)) (cmdret, clock)
          = run_test_cmds exec dur false (rest ++ c :: post) (cmdret, clock + dur x) from by
        simp [run_test_cmds, hx]]
    rw [ih']
    simp only [List.map_cons, List.sum_cons, Prod.mk.injEq, true_and]
    omega

theorem run_test_cmds_ok (exec dur : String → Nat) (dry : Bool) :
    ∀ (cmds : List String), (∀ x ∈ cmds, exec x = 0) →
      ∀ r t, (run_test_cmds exec dur dry cmds (r, t)).1 = r := by
  intro cmds
  induction cmds with
  | nil => intro _ r t; rfl
  | cons c rest ih =>
    intro h r t
    have hc : exec c = 0 := h c (by simp)
    have ih' := ih (fun y hy => h y (by simp [hy]))
    cases dry with
    | true => simpa [run_test_cmds] using ih' r t
    | false => simp [run_test_cmds, hc, ih']

theorem batch_failures_sum_zero (fs : String → Bool) (exec dur : String → Nat)
    (h : ∀ x, exec x = 0) :
    ∀ (tests : List String) (args : Args),
      (batch_failures fs exec dur args tests).sum = 0 := by
  intro tests
  induction tests with
  | nil => intro args; simp [batch_failures]
  | cons test rest ih =>
    intro args
    simp only [batch_failures, List.sum_cons, ih]
    rw [run_test_cmds_ok exec dur _ _ (fun x _ => h x)]

theorem iverilog_cmd_contains_dotfiles (fs : String → Bool) (args : Args) (test : String) :
    ∃ pre post, iverilog_compile_cmd fs args test
      = pre ++ dotfile_part fs args.dotfile ++ post := by
  refine ⟨(if args.define ≠ "" then
      "iverilog -g2012 -Wall -o svut.out " ++ get_defines args.define
    else "iverilog -g2012 -Wall -o svut.out "),
    (if args.include_dirs ≠ [] then
      "-I " ++ String.intercalate " " args.include_dirs ++ " "
    else "") ++ test ++ " ", ?_⟩
  unfold iverilog_compile_cmd
  split_ifs <;> simp [String.append_assoc]

theorem verilator_cmd_contains_dotfiles (fs : String → Bool) (args : Args) (test : String) :
    ∃ pre post, verilator_compile_cmd fs args test
      = pre ++ dotfile_part fs args.dotfile ++ post := by
  refine ⟨(if args.define ≠ "" then
      "verilator -Wall --trace --Mdir build +1800-2012ext+sv "
        ++ "+1800-2005ext+v -Wno-STMTDLY -Wno-UNUSED -Wno-UNDRIVEN -Wno-PINCONNECTEMPTY "
        ++ "-Wpedantic -Wno-VARHIDDEN -Wno-lint "
        ++ get_defines args.define
    else "verilator -Wall --trace --Mdir build +1800-2012ext+sv "
        ++ "+1800-2005ext+v -Wno-STMTDLY -Wno-UNUSED -Wno-UNDRIVEN -Wno-PINCONNECTEMPTY "
        ++ "-Wpedantic -Wno-VARHIDDEN -Wno-lint "),
    joined_sp (args.include_dirs.map (fun inc => "+incdir+" ++ inc))
      ++ "-cc --exe --build -j --top-module " ++ testnameOf test ++ " "
      ++ test ++ " " ++ args.main, ?_⟩
  unfold verilator_compile_cmd
  dsimp only
  by_cases hinc : args.include_dirs ≠ []
  · rw [if_pos hinc, incdir_foldl]
    simp [String.append_assoc]
  · rw [if_neg hinc]
    push_neg at hinc
    simp [hinc, joined_sp, String.append_assoc]

/-! ## Claim theorems -/

/-- C1: for every option record with mode RunOnly (run_only set,
compile_only clear) and every testbench target, if the build artifact is
missing (`svut.out` for Icarus, `build/V<testname>.mk` for Verilator)
then the pipeline contains both the compile command and the execute
command — RunOnly is silently promoted to Normal. -/
theorem runOnly_missing_artifact_promotes (fs : String → Bool) (args : Args)
    (test : String) (hro : args.run_only = true) (hco : args.compile_only = false)
    (hfi : fs "svut.out" = false)
    (hfv : fs ("build/V" ++ testnameOf test ++ ".mk") = false) :
    (create_iverilog fs args test).1
        = [iverilog_compile_cmd fs args test, iverilog_exec_cmd args]
    ∧ (create_verilator fs args test).1
        = [verilator_compile_cmd fs args test, verilator_exec_cmd test] := by
  rw [create_iverilog_fst, create_verilator_fst]
  simp [hro, hco, hfi, hfv]

/-- Witness for C1: a concrete RunOnly record on an empty filesystem
yields the two-command pipeline for both backends. -/
theorem runOnly_missing_artifact_promotes_witness :
    (create_iverilog (fun _ => false) { args0 with run_only := true } "tb_a.v").1
        = [iverilog_compile_cmd (fun _ => false) { args0 with run_only := true } "tb_a.v",
           iverilog_exec_cmd { args0 with run_only := true }]
    ∧ (create_verilator (fun _ => false) { args0 with run_only := true } "tb_a.v").1
        = [verilator_compile_cmd (fun _ => false) { args0 with run_only := true } "tb_a.v",
           verilator_exec_cmd "tb_a.v"] :=
  runOnly_missing_artifact_promotes (fun _ => false) { args0 with run_only := true }
    "tb_a.v" rfl rfl rfl rfl

/-- C3: for every option record with mode CompileOnly (compile_only set,
run_only clear), every testbench target and every state of the
filesystem (so for both values of artifact presence), the pipeline of
either backend is exactly the one compile command. -/
theorem compileOnly_exactly_compile (fs : String → Bool) (args : Args) (test : String)
    (hco : args.compile_only = true) (hro : args.run_only = false) :
    (create_iverilog fs args test).1 = [iverilog_compile_cmd fs args test]
    ∧ (create_verilator fs args test).1 = [verilator_compile_cmd fs args test] := by
  rw [create_iverilog_fst, create_verilator_fst]
  simp [hro, hco]

/-- Witness for C3: a concrete CompileOnly record, with every artifact
present, still yields exactly the compile command for both backends. -/
theorem compileOnly_exactly_compile_witness :
    (create_iverilog (fun _ => true) { args0 with compile_only := true } "tb_a.v").1
        = [iverilog_compile_cmd (fun _ => true) { args0 with compile_only := true } "tb_a.v"]
    ∧ (create_verilator (fun _ => true) { args0 with compile_only := true } "tb_a.v").1
        = [verilator_compile_cmd (fun _ => true) { args0 with compile_only := true } "tb_a.v"] :=
  compileOnly_exactly_compile (fun _ => true) { args0 with compile_only := true }
    "tb_a.v" rfl rfl

/-- C5: `get_defines` splits on `;`, drops empty tokens, renders each
nonempty token `T` as the single flag `-DT` in order; on `"A;B=2;;C"`
the flags are exactly `-DA`, `-DB=2`, `-DC`. -/
theorem get_defines_renders_flags :
    (∀ defines, get_defines defines = joined_sp (spec_define_flags defines))
    ∧ spec_define_flags "A;B=2;;C" = ["-DA", "-DB=2", "-DC"]
    ∧ get_defines "A;B=2;;C" = "-DA -DB=2 -DC " := by
  refine ⟨get_defines_eq, by decide, by decide⟩

/-- Counterexample to C7: the validated configuration is not immutable.
On a filesystem where only `tb_b`'s Verilator artifact exists, building
`tb_a`'s pipeline clears `run_only`; building `tb_b`'s pipeline from
the record returned for `tb_a` then yields two commands where the
unmutated record yields one. -/
theorem run_only_not_immutable_cex :
    ({ args0 with simulator := "verilator", run_only := true } : Args).run_only = true
    ∧ (create_verilator (fun s => s == "build/Vtb_b.mk")
          { args0 with simulator := "verilator", run_only := true } "tb_a.v").2.run_only = false
    ∧ (create_verilator (fun s => s == "build/Vtb_b.mk")
          { args0 with simulator := "verilator", run_only := true } "tb_b.v").1.length = 1
    ∧ (create_verilator (fun s => s == "build/Vtb_b.mk")
          ((create_verilator (fun s => s == "build/Vtb_b.mk")
            { args0 with simulator := "verilator", run_only := true } "tb_a.v").2)
          "tb_b.v").1.length = 2 :=
  ⟨rfl, rfl, rfl, rfl⟩

/-- C7 (amended): every field of the configuration except `run_only` is
preserved by pipeline construction; `run_only` is and-ed with artifact
presence, i.e. cleared exactly when the backend's artifact is missing,
and the updated record is what a later testbench of the batch sees. -/
theorem args_mutated_only_run_only (fs : String → Bool) (args : Args) (test : String) :
    (create_iverilog fs args test).2
        = { args with run_only := args.run_only && fs "svut.out" }
    ∧ (create_verilator fs args test).2
        = { args with run_only := args.run_only && fs ("build/V" ++ testnameOf test ++ ".mk") } :=
  ⟨create_iverilog_snd fs args test, create_verilator_snd fs args test⟩

/-- C10: a simulator string containing an Icarus marker (`iverilog` or
`icarus`) selects the Icarus backend even when it also contains
`verilator`, both in `check_arguments` and at every per-testbench
dispatch of the batch loop. -/
theorem icarus_precedence (sim : String)
    (h1 : pyIn "iverilog" sim = true ∨ pyIn "icarus" sim = true)
    (h2 : pyIn "verilator" sim = true) :
    check_arguments_backend sim = some .icarus
    ∧ dispatch_backend sim = some .icarus
    ∧ ∀ (fs : String → Bool) (args : Args) (test : String), args.simulator = sim →
        build_cmds fs args test = create_iverilog fs args test := by
  have hor : (pyIn "iverilog" sim || pyIn "icarus" sim) = true := by
    rcases h1 with h | h <;> simp [h]
  have hd : dispatch_backend sim = some .icarus := by
    unfold dispatch_backend; simp [hor]
  refine ⟨?_, hd, ?_⟩
  · unfold check_arguments_backend; simp [hor]
  · intro fs args test h
    unfold build_cmds
    rw [h, hd]

/-- Witness for C10: `"iverilog verilator"` contains both markers and
selects Icarus at validation and at dispatch. -/
theorem icarus_precedence_witness :
    check_arguments_backend "iverilog verilator" = some .icarus
    ∧ dispatch_backend "iverilog verilator" = some .icarus
    ∧ ∀ (fs : String → Bool) (args : Args) (test : String),
        args.simulator = "iverilog verilator" →
        build_cmds fs args test = create_iverilog fs args test :=
  icarus_precedence "iverilog verilator" (Or.inl (by decide)) (by decide)

/-- Counterexample to C2: an explicit list of two testbench paths
combined with RunOnly passes `check_arguments` — no
`ModeRequiresSingleTarget` error is raised for multi-file lists. -/
theorem multi_target_list_accepted_cex :
    check_arguments
        { args0 with test := .list ["tb_a.v", "tb_b.v"], run_only := true } = .ok () :=
  rfl

/-- C2 (amended): with a recognized simulator and modes not conflicting,
CompileOnly/RunOnly is rejected with `ModeRequiresSingleTarget` only
when the selector is the literal string `"all"`; any explicit list of
paths — of any length — passes validation. -/
theorem mode_single_target_only_all (args : Args)
    (hsim : check_arguments_backend args.simulator ≠ none)
    (hmode : args.compile_only = true ∨ args.run_only = true)
    (hnb : ¬(args.compile_only = true ∧ args.run_only = true)) :
    (args.test = .str "all" →
        check_arguments args = .error .ModeRequiresSingleTarget)
    ∧ (∀ l, args.test = .list l → check_arguments args = .ok ()) := by
  rw [check_arguments_of_recognized args hsim]
  have hand : (args.compile_only && args.run_only) = false := by
    cases hc : args.compile_only <;> cases hr : args.run_only <;> simp_all
  have hor : (args.compile_only || args.run_only) = true := by
    rcases hmode with h | h <;> simp [h]
  constructor
  · intro hall
    unfold check_arguments.checkRest
    simp [hall, hand, hor]
  · intro l hl
    unfold check_arguments.checkRest
    simp [hl, hand]

/-- Witness for C2 (amended): a concrete CompileOnly record whose
selector is the default `"all"` is rejected with the single-target
error. -/
theorem mode_single_target_only_all_witness :
    (({ args0 with compile_only := true } : Args).test = .str "all" →
        check_arguments { args0 with compile_only := true }
          = .error .ModeRequiresSingleTarget)
    ∧ (∀ l, ({ args0 with compile_only := true } : Args).test = .list l →
        check_arguments { args0 with compile_only := true } = .ok ()) :=
  mode_single_target_only_all { args0 with compile_only := true }
    (by decide) (Or.inl rfl) (by decide)

/-- Counterexample to C9: an explicitly empty `-test` list (Python `[]`,
which is not the string `""`) passes `check_arguments` — no
`MissingTestcase` error is raised for it. -/
theorem empty_list_accepted_cex :
    check_arguments { args0 with test := .list [] } = .ok () :=
  rfl

/-- C9 (amended): with a recognized simulator and non-conflicting modes,
`MissingTestcase` is raised only when the selector is the empty string;
an explicitly empty list passes validation, after which the batch loop
runs zero pipelines and the final elapsed-time report has no start
value (the script hits an unassigned `start`). -/
theorem missing_testcase_only_empty_string (args : Args)
    (hsim : check_arguments_backend args.simulator ≠ none)
    (hnb : ¬(args.compile_only = true ∧ args.run_only = true)) :
    (args.test = .str "" → check_arguments args = .error .MissingTestcase)
    ∧ (args.test = .list [] → check_arguments args = .ok ())
    ∧ (∀ (fs : String → Bool) (exec dur : String → Nat),
        reported_elapsed (run_main fs exec dur args []) = none) := by
  rw [check_arguments_of_recognized args hsim]
  have hand : (args.compile_only && args.run_only) = false := by
    cases hc : args.compile_only <;> cases hr : args.run_only <;> simp_all
  refine ⟨?_, ?_, ?_⟩
  · intro h
    unfold check_arguments.checkRest
    simp [h]
  · intro h
    unfold check_arguments.checkRest
    simp [h, hand]
  · intro fs exec dur
    rfl

/-- Witness for C9 (amended): the empty-string selector is rejected on a
concrete record, and the empty batch reports no elapsed start. -/
theorem missing_testcase_only_empty_string_witness :
    (({ args0 with test := .str "" } : Args).test = .str "" →
        check_arguments { args0 with test := .str "" } = .error .MissingTestcase)
    ∧ (({ args0 with test := .str "" } : Args).test = .list [] →
        check_arguments { args0 with test := .str "" } = .ok ())
    ∧ (∀ (fs : String → Bool) (exec dur : String → Nat),
        reported_elapsed (run_main fs exec dur { args0 with test := .str "" } []) = none) :=
  missing_testcase_only_empty_string { args0 with test := .str "" }
    (by decide) (by decide)

/-- C4: a nonzero command exit adds exactly one to the failure counter
and skips the remaining commands of that testbench's pipeline (the
result does not depend on them and no time is charged for them); a
pipeline of successful commands adds nothing; the batch's final exit
code `cmdret` is the sum of the per-testbench failure counts, and is 0
when every command succeeds. -/
theorem failure_aborts_pipeline_and_accumulates
    (exec exec2 dur : String → Nat) (pre : List String) (c : String)
    (post cmds : List String) (cmdret clock r t : Nat)
    (fs : String → Bool) (args : Args) (tests : List String)
    (h1 : ∀ x ∈ pre, exec x = 0) (h2 : exec c ≠ 0) (h3 : ∀ x ∈ cmds, exec x = 0)
    (h4 : ∀ x, exec2 x = 0) :
    run_test_cmds exec dur false (pre ++ c :: post) (cmdret, clock)
        = (cmdret + 1, clock + (pre.map dur).sum + dur c)
    ∧ (run_test_cmds exec dur false cmds (r, t)).1 = r
    ∧ (run_main fs exec dur args tests).cmdret
        = (batch_failures fs exec dur args tests).sum
    ∧ (run_main fs exec2 dur args tests).cmdret = 0 := by
  refine ⟨run_test_cmds_fail exec dur pre h1 c h2 post cmdret clock,
    run_test_cmds_ok exec dur false cmds h3 r t, ?_, ?_⟩
  · simpa [run_main] using
      run_main_go_cmdret fs exec dur tests { cmdret := 0, args := args, start := none, clock := 0 }
  · rw [show (run_main fs exec2 dur args tests).cmdret
          = 0 + (batch_failures fs exec2 dur args tests).sum from by
        simpa [run_main] using run_main_go_cmdret fs exec2 dur tests
          { cmdret := 0, args := args, start := none, clock := 0 }]
    rw [batch_failures_sum_zero fs exec2 dur h4]

/-- Witness for C4: one failing command among concrete pipelines; the
batch over one testbench with an all-succeeding executor exits 0. -/
theorem failure_aborts_pipeline_and_accumulates_witness :
    run_test_cmds (fun s => if s == "bad" then 1 else 0) (fun _ => 1) false
        (["ok1"] ++ "bad" :: ["skipped"]) (0, 0)
        = (0 + 1, 0 + (["ok1"].map (fun _ => 1)).sum + (fun _ => 1) "bad")
    ∧ (run_test_cmds (fun s => if s == "bad" then 1 else 0) (fun _ => 1) false
        ["ok1", "ok2"] (0, 0)).1 = 0
    ∧ (run_main (fun _ => true) (fun s => if s == "bad" then 1 else 0) (fun _ => 1)
        args0 ["tb_a.v"]).cmdret
        = (batch_failures (fun _ => true) (fun s => if s == "bad" then 1 else 0)
            (fun _ => 1) args0 ["tb_a.v"]).sum
    ∧ (run_main (fun _ => true) (fun _ => 0) (fun _ => 1) args0 ["tb_a.v"]).cmdret = 0 :=
  failure_aborts_pipeline_and_accumulates
    (fun s => if s == "bad" then 1 else 0) (fun _ => 0) (fun _ => 1)
    ["ok1"] "bad" ["skipped"] ["ok1", "ok2"] 0 0 0 0
    (fun _ => true) args0 ["tb_a.v"]
    (by decide) (by decide) (by decide) (fun _ => rfl)

/-- Counterexample to C8: a two-testbench batch (Icarus, Normal mode,
each command taking one time unit) ends with clock 4 — the whole-batch
span — yet reports an elapsed time of 2, the span of the last
testbench only. -/
theorem elapsed_not_whole_batch_cex :
    reported_elapsed
        (run_main (fun _ => true) (fun _ => 0) (fun _ => 1) args0 ["tb_a.v", "tb_b.v"])
        = some 2
    ∧ (run_main (fun _ => true) (fun _ => 0) (fun _ => 1) args0
        ["tb_a.v", "tb_b.v"]).clock = 4 :=
  ⟨rfl, rfl⟩

/-- C8 (amended): `start` is re-assigned at each testbench iteration, so
the interval reported at the end begins at the clock value reached
after all earlier testbenches completed — the report spans only the
last testbench's pipeline; it equals the whole-batch span exactly for
single-testbench batches. -/
theorem elapsed_spans_last_test (fs : String → Bool) (exec dur : String → Nat)
    (args : Args) :
    (∀ (tests : List String) (t : String),
        (run_main fs exec dur args (tests ++ [t])).start
          = some ((run_main fs exec dur args tests).clock))
    ∧ (∀ t : String,
        reported_elapsed (run_main fs exec dur args [t])
          = some ((run_main fs exec dur args [t]).clock)) := by
  constructor
  · intro tests t
    rw [run_main, run_main_go_append]
    rfl
  · intro t
    simp [run_main, run_main_go, reported_elapsed]

/-- C6: the `-f` fragment of the compile command holds, space-joined,
exactly the manifest paths that exist on disk, in their original order;
nonexistent paths are dropped without any error and the `-f` flag is
omitted entirely when no listed manifest exists.  The fragment occurs
verbatim inside the compile command of either backend, which is the
first command of the pipeline whenever the mode is not RunOnly. -/
theorem manifest_existing_only (fs : String → Bool) (args : Args) (test : String)
    (hro : args.run_only = false) :
    dotfile_part fs args.dotfile
        = (if args.dotfile.filter fs = [] then ""
           else "-f " ++ joined_sp (args.dotfile.filter fs) ++ " ")
    ∧ (∃ pre post, iverilog_compile_cmd fs args test
        = pre ++ dotfile_part fs args.dotfile ++ post)
    ∧ (∃ pre post, verilator_compile_cmd fs args test
        = pre ++ dotfile_part fs args.dotfile ++ post)
    ∧ (create_iverilog fs args test).1.headD "" = iverilog_compile_cmd fs args test
    ∧ (create_verilator fs args test).1.headD "" = verilator_compile_cmd fs args test := by
  refine ⟨dotfile_part_eq fs args.dotfile, iverilog_cmd_contains_dotfiles fs args test,
    verilator_cmd_contains_dotfiles fs args test, ?_, ?_⟩
  · rw [create_iverilog_fst]
    simp [hro]
  · rw [create_verilator_fst]
    simp [hro]

/-- Witness for C6: a manifest list with one existing and one missing
file renders only the existing one. -/
theorem manifest_existing_only_witness :
    dotfile_part (fun s => s == "a.f") ["a.f", "missing.f"]
        = (if (["a.f", "missing.f"].filter (fun s => s == "a.f")) = [] then ""
           else "-f " ++ joined_sp (["a.f", "missing.f"].filter (fun s => s == "a.f")) ++ " ")
    ∧ (∃ pre post,
        iverilog_compile_cmd (fun s => s == "a.f")
            { args0 with dotfile := ["a.f", "missing.f"] } "tb_a.v"
          = pre ++ dotfile_part (fun s => s == "a.f") ["a.f", "missing.f"] ++ post)
    ∧ (∃ pre post,
        verilator_compile_cmd (fun s => s == "a.f")
            { args0 with dotfile := ["a.f", "missing.f"] } "tb_a.v"
          = pre ++ dotfile_part (fun s => s == "a.f") ["a.f", "missing.f"] ++ post)
    ∧ (create_iverilog (fun s => s == "a.f")
          { args0 with dotfile := ["a.f", "missing.f"] } "tb_a.v").1.headD ""
        = iverilog_compile_cmd (fun s => s == "a.f")
            { args0 with dotfile := ["a.f", "missing.f"] } "tb_a.v"
    ∧ (create_verilator (fun s => s == "a.f")
          { args0 with dotfile := ["a.f", "missing.f"] } "tb_a.v").1.headD ""
        = verilator_compile_cmd (fun s => s == "a.f")
            { args0 with dotfile := ["a.f", "missing.f"] } "tb_a.v" :=
  manifest_existing_only (fun s => s == "a.f")
    { args0 with dotfile := ["a.f", "missing.f"] } "tb_a.v" rfl

end Svut
